import Mathlib

set_option maxRecDepth 8000

/-!
# Shallow embedding of the libdcf77 DCF77 decoder (src/dcf77.cpp, src/dcf77.hpp)

Machine integers are modelled as `Nat` with explicit reductions (`% 2 ^ w`,
16-bit wrap-around subtraction) exactly where the C++ code wraps.  Booleans
are `Bool`, and the fixed-point low-pass accumulator (a `uint8_t` in the
source) is a `Nat` that the filter keeps below 256.
-/

namespace Dcf77

/-! ## Fixed-point low-pass filter constants (dcf77.cpp lines 27-46) -/

/-- `FIXED_POINT_LOG2_BASE = 7`. -/
def FIXED_POINT_LOG2_BASE : Nat := 7

/-- `FIXED_POINT_BASE = 1 << 7 = 128`. -/
def FIXED_POINT_BASE : Nat := 1 <<< FIXED_POINT_LOG2_BASE

/-- `FLT_F1 = uint8_t(FIXED_POINT_BASE * 0.97)`; `128 * 0.97 = 124.16`
truncates to `124`. -/
def FLT_F1 : Nat := 124

/-- `FLT_F2 = FIXED_POINT_BASE - FLT_F1 = 4`. -/
def FLT_F2 : Nat := FIXED_POINT_BASE - FLT_F1

/-- The single-pole filter update (dcf77.cpp lines 32-37):
`(uint16_t(x) * uint16_t(FLT_F1) + (ctrl ? uint16_t(FLT_F2) << 7 : 0)) >> 7`,
truncated to `uint8_t` on return.  For `x < 256` the intermediate value fits
a `uint16_t` and the result is below 252, so no wrapping actually occurs; the
final `% 256` models the `uint8_t` return type. -/
def filter (ctrl : Bool) (x : Nat) : Nat :=
  ((x * FLT_F1 + (if ctrl then FLT_F2 <<< FIXED_POINT_LOG2_BASE else 0)) >>>
     FIXED_POINT_LOG2_BASE) % 256

/-- `filter_convergence` (dcf77.cpp lines 39-43) iterates `filter` until a
fixed point is hit.  The C++ `constexpr` recursion is unbounded; here it
carries explicit fuel, and the fuel used below (256) is shown sufficient
because the resulting values are fixed points of `filter`. -/
def filter_convergence (ctrl : Bool) : Nat → Nat → Nat
  | 0, x => x
  | fuel + 1, x => if filter ctrl x = x then x
                   else filter_convergence ctrl fuel (filter ctrl x)

/-- `FLT_MAX = filter_convergence(true)` starting at `FIXED_POINT_BASE / 2`. -/
def FLT_MAX : Nat := filter_convergence true 256 (FIXED_POINT_BASE / 2)

/-- `FLT_MIN = filter_convergence(false)` starting at `FIXED_POINT_BASE / 2`. -/
def FLT_MIN : Nat := filter_convergence false 256 (FIXED_POINT_BASE / 2)

/-! ## Class `debounce` (dcf77.cpp lines 48-91, dcf77.hpp lines 41-120) -/

/-- `debounce::result` (dcf77.hpp lines 46-63). -/
structure result where
  t : Nat
  value : Bool
  edge : Bool
deriving Repr, DecidableEq

/-- The member state of class `debounce` (dcf77.hpp lines 65-95). -/
structure debounce where
  m_low_pass : Nat
  m_last_t : Nat
  m_last_state_change : Nat
  m_hysteresis : Nat
  m_last_input_value : Bool
  m_result : result
deriving Repr, DecidableEq

/-- 16-bit wrap-around difference `a - b` on `uint16_t` values. -/
def sub16 (a b : Nat) : Nat := (65536 + a % 65536 - b % 65536) % 65536

/-- The constructor `debounce::debounce(hysteresis)` (dcf77.cpp lines 48-53):
`m_hysteresis = (uint16_t(hysteresis) * (FLT_MAX - FLT_MIN)) >> 8` with the
argument truncated to `uint8_t`. -/
def debounce.init (hysteresis : Nat) : debounce :=
  { m_low_pass := FIXED_POINT_BASE / 2
    m_last_t := 0
    m_last_state_change := 0
    m_hysteresis := (hysteresis % 256 * (FLT_MAX - FLT_MIN)) >>> 8
    m_last_input_value := false
    m_result := ⟨0, false, false⟩ }

/-- The low-pass loop of `debounce::sample` (dcf77.cpp lines 58-66): apply
`filter` up to `dt` times, stopping as soon as an application leaves the
accumulator unchanged. -/
def low_pass_iter (value : Bool) : Nat → Nat → Nat
  | 0, lp => lp
  | dt + 1, lp =>
    let lp2 := filter value lp
    if lp2 = lp then lp2 else low_pass_iter value dt lp2

/-- `debounce::sample(value, t)` (dcf77.cpp lines 55-91).  The threshold
comparisons are carried out over `Int`, matching the C++ integer promotion of
the `uint8_t` operands. -/
def debounce.sample (st : debounce) (value : Bool) (t : Nat) : debounce :=
  let dt := sub16 t st.m_last_t
  let lp := low_pass_iter value dt st.m_low_pass
  let lsc := if value ≠ st.m_last_input_value then t % 65536
             else st.m_last_state_change
  let res :=
    if (lp : Int) > (FLT_MAX : Int) - (st.m_hysteresis : Int) ∧
        st.m_result.value = false then
      (⟨lsc, true, true⟩ : result)
    else if (lp : Int) < (FLT_MIN : Int) + (st.m_hysteresis : Int) ∧
        st.m_result.value = true then
      (⟨lsc, false, true⟩ : result)
    else
      { st.m_result with edge := false }
  { m_low_pass := lp
    m_last_t := t % 65536
    m_last_state_change := lsc
    m_hysteresis := st.m_hysteresis
    m_last_input_value := value
    m_result := res }

/-! ## Union `data` (dcf77.hpp lines 122-322, dcf77.cpp lines 97-143)

The union overlays a 64-bit integer `bitstream` with packed bit-fields.  The
embedding keeps the `bitstream` as a `Nat` (kept below `2 ^ 64`) and reads
each bit-field through its offset and width, following the declaration order
of the packed struct: minute_start (bit 0), aux_data (1-14), call_bit (15),
dst_leap_hour (16), cest (17), cet (18), leap_second (19), time_start (20),
minute (21-27), parity_minute (28), hour (29-34), parity_hour (35),
day (36-41), day_of_week (42-44), month (45-49), year (50-57),
parity_date (58), leap_second_bit (59). -/

/-- The modulus of `uint64_t` arithmetic. -/
def U64 : Nat := 2 ^ 64

/-- A telegram record: the `data` union, represented by its `bitstream`. -/
structure data where
  bitstream : Nat
deriving Repr, DecidableEq

/-- `data::data()` zero-initialises the bitstream. -/
def data.init : data := ⟨0⟩

/-- Bit-field extraction: `width` bits of the bitstream starting at `lo`. -/
def bits (n lo width : Nat) : Nat := (n >>> lo) &&& (2 ^ width - 1)

/-- `raw.minute_start` — bit 0. -/
def data.minute_start (d : data) : Nat := bits d.bitstream 0 1

/-- `raw.cest` — bit 17. -/
def data.cest (d : data) : Nat := bits d.bitstream 17 1

/-- `raw.cet` — bit 18. -/
def data.cet (d : data) : Nat := bits d.bitstream 18 1

/-- `raw.time_start` — bit 20. -/
def data.time_start (d : data) : Nat := bits d.bitstream 20 1

/-- `raw.minute` — bits 21-27. -/
def data.raw_minute (d : data) : Nat := bits d.bitstream 21 7

/-- `raw.parity_minute` — bit 28. -/
def data.parity_minute (d : data) : Nat := bits d.bitstream 28 1

/-- `raw.hour` — bits 29-34. -/
def data.raw_hour (d : data) : Nat := bits d.bitstream 29 6

/-- `raw.parity_hour` — bit 35. -/
def data.parity_hour (d : data) : Nat := bits d.bitstream 35 1

/-- `raw.day` — bits 36-41. -/
def data.raw_day (d : data) : Nat := bits d.bitstream 36 6

/-- `raw.day_of_week` — bits 42-44. -/
def data.day_of_week (d : data) : Nat := bits d.bitstream 42 3

/-- `raw.month` — bits 45-49. -/
def data.raw_month (d : data) : Nat := bits d.bitstream 45 5

/-- `raw.year` — bits 50-57. -/
def data.raw_year (d : data) : Nat := bits d.bitstream 50 8

/-- `raw.parity_date` — bit 58. -/
def data.parity_date (d : data) : Nat := bits d.bitstream 58 1

/-- Binary-digit recursion for the number of set bits, with explicit fuel so
that the definition reduces inside the kernel. -/
def popcount_go : Nat → Nat → Nat
  | 0, _ => 0
  | fuel + 1, n => if n = 0 then 0 else n % 2 + popcount_go fuel (n / 2)

/-- Number of set bits of an operand of `__builtin_popcount`.  Every operand
the source passes is below `2 ^ 64`, for which 64 digits of fuel suffice. -/
def popcount (n : Nat) : Nat := popcount_go 64 n

/-- `parity(x) = __builtin_popcount(x) & 1` (dcf77.cpp lines 97-101). -/
def parity (x : Nat) : Nat := popcount x % 2

/-- `valid_bcd<max_hi, max_lo>(x)` (dcf77.cpp lines 103-126). -/
def valid_bcd (max_hi max_lo x : Nat) : Bool :=
  let hi := (x &&& 0xF0) >>> 4
  let lo := (x &&& 0x0F) >>> 0
  if hi > 9 ∨ lo > 9 then false
  else if hi > max_hi then false
  else if hi = max_hi ∧ lo > max_lo then false
  else true

/-- `data::valid(time_and_date_only)` (dcf77.cpp lines 128-143).  The date
parity covers `uint32_t((bitstream & 0x3FFFFF000000000) >> 32)`, i.e. bits
36-57 (day, day_of_week, month, year). -/
def data.valid (d : data) (time_and_date_only : Bool) : Bool :=
  (time_and_date_only || (d.minute_start == 0)) &&
  (d.time_start == 1) &&
  (time_and_date_only || (d.cest != d.cet)) &&
  (d.parity_minute == parity d.raw_minute) &&
  (d.parity_hour == parity d.raw_hour) &&
  (d.parity_date == parity ((d.bitstream &&& 0x3FFFFF000000000) >>> 32)) &&
  valid_bcd 5 9 d.raw_minute &&
  valid_bcd 2 3 d.raw_hour &&
  valid_bcd 3 1 d.raw_day &&
  (d.raw_day > 0) && (d.day_of_week > 0) &&
  valid_bcd 1 2 d.raw_month && (d.raw_month > 0) &&
  valid_bcd 9 9 d.raw_year

/-- `data::decode_bcd(v)` (dcf77.hpp lines 258-274). -/
def decode_bcd (v : Nat) : Nat :=
  (v &&& 0x0F) +
  (if v &&& 0x10 ≠ 0 then 10 else 0) +
  (if v &&& 0x20 ≠ 0 then 20 else 0) +
  (if v &&& 0x40 ≠ 0 then 40 else 0) +
  (if v &&& 0x80 ≠ 0 then 80 else 0)

/-! ## Class `decoder` (dcf77.hpp lines 329-441, dcf77.cpp lines 149-190) -/

/-- `decoder::state` (dcf77.hpp lines 334-356). -/
inductive state where
  | no_result
  | invalid_result
  | has_time_and_date
  | has_complete
deriving Repr, DecidableEq

/-- The underlying `int8_t` value of each enumerator; the C++ comparison
`res >= state::has_time_and_date` compares these values. -/
def state.toInt : state → Int
  | .no_result => 0
  | .invalid_result => -1
  | .has_time_and_date => 1
  | .has_complete => 2

/-- `SLACK = 50` (dcf77.hpp line 363). -/
def SLACK : Nat := 50

/-- `SYNC_HIGH_TIME = 1800` (dcf77.hpp line 369). -/
def SYNC_HIGH_TIME : Nat := 1800

/-- `LOW_ZERO_TIME = 100` (dcf77.hpp line 374). -/
def LOW_ZERO_TIME : Nat := 100

/-- `LOW_ONE_TIME = 200` (dcf77.hpp line 379). -/
def LOW_ONE_TIME : Nat := 200

/-- The member state of class `decoder` (dcf77.hpp lines 358-413). -/
structure decoder where
  m_debouncer : debounce
  m_phase : Nat
  m_last_t : Nat
  m_data_new : data
  m_data_current : data
  m_state : Nat
deriving Repr, DecidableEq

/-- Default-constructed `decoder`, with the default debouncer hysteresis 64. -/
def decoder.init : decoder :=
  { m_debouncer := debounce.init 64
    m_phase := 0
    m_last_t := 0
    m_data_new := data.init
    m_data_current := data.init
    m_state := 0 }

/-- The single-bit write `m_data_new.bitstream |= uint64_t(1) << m_state`
(dcf77.cpp line 182).  The C++ shift is well defined only for a shift amount
below the 64-bit word width; the out-of-range branch (undefined behaviour in
C++) is modelled as leaving the register unchanged. -/
def set_bit (bs i : Nat) : Nat :=
  if i < 64 then bs ||| (1 <<< i) else bs

/-- The sync-event branch of `decoder::sample` (dcf77.cpp lines 158-173):
shift-and-validate (fewer than 59 bits) or full validation, commit of the
working register and of the phase on success, and the unconditional reset of
`m_state` and of the working register.  `event_t` is the timestamp of the
falling edge. -/
def decoder.sync (d : decoder) (event_t : Nat) : decoder × state :=
  if d.m_state < 59 then
    let bs := (d.m_data_new.bitstream <<< (59 - d.m_state)) % U64
    let res := if (data.mk bs).valid true then state.has_time_and_date
               else state.no_result
    let d2 := if res.toInt ≥ state.has_time_and_date.toInt then
                { d with m_data_new := ⟨bs⟩, m_data_current := ⟨bs⟩,
                         m_phase := event_t }
              else { d with m_data_new := ⟨bs⟩ }
    ({ d2 with m_state := 0, m_data_new := ⟨0⟩ }, res)
  else
    let res := if d.m_data_new.valid false then state.has_complete
               else state.no_result
    let d2 := if res.toInt ≥ state.has_time_and_date.toInt then
                { d with m_data_current := d.m_data_new, m_phase := event_t }
              else d
    ({ d2 with m_state := 0, m_data_new := ⟨0⟩ }, res)

/-- The body of `decoder::sample` once the debounced event is available
(dcf77.cpp lines 152-189): everything guarded by `if (event.edge)`, plus the
result initialisation.  Returns the updated decoder and the returned state. -/
def decoder.handle (d : decoder) (event : result) : decoder × state :=
  if event.edge then
    let dt := sub16 event.t d.m_last_t
    let r :=
      if event.value = false then
        -- Falling edge
        if dt > SYNC_HIGH_TIME - SLACK then d.sync event.t
        else (d, state.no_result)
      else
        -- Rising edge
        if dt > LOW_ZERO_TIME - SLACK then
          -- We received a "one" or a "zero"
          ({ d with
               m_data_new := ⟨if dt > LOW_ONE_TIME - SLACK then
                                set_bit d.m_data_new.bitstream d.m_state
                              else d.m_data_new.bitstream⟩,
               m_state := (d.m_state + 1) % 256 },
           state.no_result)
        else (d, state.no_result)
    ({ r.1 with m_last_t := event.t }, r.2)
  else (d, state.no_result)

/-- `decoder::sample(value, t)` (dcf77.cpp lines 149-190). -/
def decoder.sample (d : decoder) (value : Bool) (t : Nat) : decoder × state :=
  let deb := d.m_debouncer.sample value t
  decoder.handle { d with m_debouncer := deb } deb.m_result

/-- `decoder::get_phase()` (dcf77.hpp line 435). -/
def decoder.get_phase (d : decoder) : Nat := d.m_phase

/-- `decoder::get_data()` (dcf77.hpp line 440). -/
def decoder.get_data (d : decoder) : data := d.m_data_current

/-! ## Input traces

Helpers that drive the embedded components over a list of
`(value, timestamp)` samples, used to state the trace-level properties. -/

/-- The list of debouncer states reached while feeding the samples of the
trace in order, one `debounce.sample` call per element. -/
def debounce.trace (st : debounce) : List (Bool × Nat) → List debounce
  | [] => []
  | p :: rest =>
    let st2 := st.sample p.1 p.2
    st2 :: st2.trace rest

/-- Feed a trace of samples to the decoder, keeping only the final state. -/
def decoder.run (d : decoder) (l : List (Bool × Nat)) : decoder :=
  l.foldl (fun d p => (d.sample p.1 p.2).1) d

/-- Index of the first call reporting an edge when the debouncer is fed the
constant input `true` once per tick at timestamps `t0, t0 + 1, …`, with at
most `fuel` calls. -/
def first_edge_true (st : debounce) (t0 : Nat) : Nat → Option Nat
  | 0 => none
  | fuel + 1 =>
    let st2 := st.sample true t0
    if st2.m_result.edge then some 0
    else (first_edge_true st2 (t0 + 1) fuel).map (· + 1)

/-- The canonical single-transition experiment of the hysteresis claim: a
freshly constructed debouncer (raw input considered `false` so far) whose raw
input flips to `true` at tick 1 and stays there, sampled once per tick.
Returns the number of ticks from the transition until the debounced output
first reports the rising edge. -/
def flip_delay (hysteresis fuel : Nat) : Option Nat :=
  first_edge_true (debounce.init hysteresis) 1 fuel

/-- A decoder input trace of `n` accepted one-bit pulses and no minute
boundary: cycle `i` raises the carrier at `1000 i + 1000` and lowers it at
`1000 i + 1800`, so every rising edge follows a 200 ms low phase (a one-bit)
and every falling edge follows an 800 ms high phase (no sync). -/
def pulse_train (n : Nat) : List (Bool × Nat) :=
  (List.range n).foldr
    (fun i acc => (true, 1000 * i + 1000) :: (false, 1000 * i + 1800) :: acc)
    []

/-- The slice of `pulse_train` covering cycles `a` to `b - 1`. -/
def pulse_seg (a b : Nat) : List (Bool × Nat) :=
  (List.range (b - a)).foldr
    (fun k acc =>
      (true, 1000 * (a + k) + 1000) :: (false, 1000 * (a + k) + 1800) :: acc)
    []

/-- Running a concatenated trace runs the two parts in sequence. -/
theorem decoder.run_append (d : decoder) (l1 l2 : List (Bool × Nat)) :
    decoder.run d (l1 ++ l2) = decoder.run (decoder.run d l1) l2 := by
  simp [decoder.run]

/-- The decoder state after 32 cycles of `pulse_train`. -/
def dec_after32 : decoder :=
  { m_debouncer := ⟨0, 32800, 32800, 24, false, ⟨32800, false, true⟩⟩
    m_phase := 0
    m_last_t := 32800
    m_data_new := ⟨4294967295⟩
    m_data_current := ⟨0⟩
    m_state := 32 }

/-- The decoder state after 64 cycles of `pulse_train`. -/
def dec_after64 : decoder :=
  { m_debouncer := ⟨0, 64800, 64800, 24, false, ⟨64800, false, true⟩⟩
    m_phase := 0
    m_last_t := 64800
    m_data_new := ⟨18446744073709551615⟩
    m_data_current := ⟨0⟩
    m_state := 64 }

/-- The decoder state after 65 cycles of `pulse_train`: `m_state` has passed
the word width and the 65th one-bit write changed nothing. -/
def dec_after65 : decoder :=
  { m_debouncer := ⟨0, 264, 264, 24, false, ⟨264, false, true⟩⟩
    m_phase := 0
    m_last_t := 264
    m_data_new := ⟨18446744073709551615⟩
    m_data_current := ⟨0⟩
    m_state := 65 }

/-! ## Concrete values used by the witnesses -/

/-- A structurally valid telegram bitstream: CEST set (bit 17), time start
set (bit 20), minute 0, hour 0, day 1 (bit 36), Monday (bit 42), January
(bit 45), year 0, date parity 1 (bit 58, three covered bits are set). -/
def valid_bits : Nat :=
  (1 <<< 17) + (1 <<< 20) + (1 <<< 36) + (1 <<< 42) + (1 <<< 45) + (1 <<< 58)

/-- A decoder that has accumulated `valid_bits` over 59 bits, with its
debounced output high and the accumulator low, so that sampling `false` at
t = 2000 yields a falling edge 2000 ms after the previous edge. -/
def dec_c1 : decoder :=
  { m_debouncer := ⟨0, 2000, 0, 24, true, ⟨0, true, false⟩⟩
    m_phase := 0
    m_last_t := 0
    m_data_new := ⟨valid_bits⟩
    m_data_current := ⟨0⟩
    m_state := 59 }

/-- A decoder that has captured only the upper 39 bits of `valid_bits`
(started mid-minute), in the same falling-edge situation as `dec_c1`. -/
def dec_c2 : decoder :=
  { m_debouncer := ⟨0, 2000, 0, 24, true, ⟨0, true, false⟩⟩
    m_phase := 0
    m_last_t := 0
    m_data_new := ⟨valid_bits >>> 20⟩
    m_data_current := ⟨0⟩
    m_state := 39 }

/-- A decoder holding an all-zero (invalid) working register at a minute
boundary, with a previously committed record and phase. -/
def dec_c6 : decoder :=
  { m_debouncer := ⟨0, 2000, 0, 24, true, ⟨0, true, false⟩⟩
    m_phase := 77
    m_last_t := 0
    m_data_new := ⟨0⟩
    m_data_current := ⟨123⟩
    m_state := 59 }

/-- A decoder whose next sample of `true` produces a rising edge (converged
high accumulator, debounced output low). -/
def dec_c7 : decoder :=
  { m_debouncer := ⟨97, 300, 0, 24, false, ⟨0, false, false⟩⟩
    m_phase := 0
    m_last_t := 0
    m_data_new := ⟨0⟩
    m_data_current := ⟨0⟩
    m_state := 5 }

/-! ## Claims -/

/-- **C8**: `decoder::sample` never returns the declared enumeration value
`invalid_result`; every call returns `no_result`, `has_time_and_date` or
`has_complete`. -/
theorem claim_C8 (d : decoder) (value : Bool) (t : Nat) :
    (d.sample value t).2 ≠ state.invalid_result := by
  have h : ∀ (d2 : decoder) (ev : result),
      (decoder.handle d2 ev).2 ≠ state.invalid_result := by
    intro d2 ev
    unfold decoder.handle decoder.sync
    split
    · simp only [apply_ite Prod.snd]
      split_ifs <;> simp
    · simp
  exact h _ _

/-- **C1**: with 59 bits accumulated, a falling edge more than
`SYNC_HIGH_TIME - SLACK` after the previous edge whose full validation
succeeds returns `has_complete`, copies the working register into the record
returned by `get_data()`, and sets the phase returned by `get_phase()` to the
falling edge's reported timestamp. -/
theorem claim_C1 (d : decoder) (value : Bool) (t : Nat)
    (hedge : (d.m_debouncer.sample value t).m_result.edge = true)
    (hfall : (d.m_debouncer.sample value t).m_result.value = false)
    (hdt : sub16 (d.m_debouncer.sample value t).m_result.t d.m_last_t >
      SYNC_HIGH_TIME - SLACK)
    (hbits : d.m_state = 59)
    (hvalid : d.m_data_new.valid false = true) :
    (d.sample value t).2 = state.has_complete ∧
    (d.sample value t).1.get_data = d.m_data_new ∧
    (d.sample value t).1.get_phase =
      (d.m_debouncer.sample value t).m_result.t := by
  unfold decoder.sample decoder.handle decoder.sync decoder.get_data
    decoder.get_phase
  simp only [hedge, hfall, hbits, hvalid, if_true, if_pos hdt]
  norm_num [state.toInt]

/-- Witness for **C1**: the concrete decoder `dec_c1` satisfies all the
hypotheses, and the call commits `valid_bits` and phase 2000. -/
theorem claim_C1_witness :
    (dec_c1.sample false 2000).2 = state.has_complete ∧
    (dec_c1.sample false 2000).1.get_data = dec_c1.m_data_new ∧
    (dec_c1.sample false 2000).1.get_phase =
      (dec_c1.m_debouncer.sample false 2000).m_result.t :=
  claim_C1 dec_c1 false 2000 (by decide) (by decide) (by decide) (by decide)
    (by decide)

/-- **C2**: with fewer than 59 bits accumulated, a minute boundary validates
the working register left-shifted by `59 - bit_index` bits (modulo `2 ^ 64`)
in time-and-date-only mode, never returns `has_complete`, and returns
`has_time_and_date` exactly when the shifted register validates — in which
case the shifted register is also what gets committed. -/
theorem claim_C2 (d : decoder) (value : Bool) (t : Nat)
    (hedge : (d.m_debouncer.sample value t).m_result.edge = true)
    (hfall : (d.m_debouncer.sample value t).m_result.value = false)
    (hdt : sub16 (d.m_debouncer.sample value t).m_result.t d.m_last_t >
      SYNC_HIGH_TIME - SLACK)
    (hbits : d.m_state < 59) :
    (d.sample value t).2 ≠ state.has_complete ∧
    ((d.sample value t).2 = state.has_time_and_date ∨
      (d.sample value t).2 = state.no_result) ∧
    ((d.sample value t).2 = state.has_time_and_date ↔
      (data.mk ((d.m_data_new.bitstream <<< (59 - d.m_state)) % U64)).valid
        true = true) ∧
    ((data.mk ((d.m_data_new.bitstream <<< (59 - d.m_state)) % U64)).valid
        true = true →
      (d.sample value t).1.get_data =
        data.mk ((d.m_data_new.bitstream <<< (59 - d.m_state)) % U64)) := by
  unfold decoder.sample decoder.handle decoder.sync decoder.get_data
  simp only [hedge, hfall, if_true, if_pos hdt, if_pos hbits]
  by_cases hv :
      (data.mk ((d.m_data_new.bitstream <<< (59 - d.m_state)) % U64)).valid
        true = true
  · simp [hv, state.toInt]
  · simp [hv, state.toInt]

/-- Witness for **C2**: `dec_c2` captured the upper 39 bits of a valid
telegram; the boundary call validates the re-shifted register and commits
it. -/
theorem claim_C2_witness :
    (dec_c2.sample false 2000).2 ≠ state.has_complete ∧
    ((dec_c2.sample false 2000).2 = state.has_time_and_date ∨
      (dec_c2.sample false 2000).2 = state.no_result) ∧
    ((dec_c2.sample false 2000).2 = state.has_time_and_date ↔
      (data.mk ((dec_c2.m_data_new.bitstream <<< (59 - dec_c2.m_state)) %
        2 ^ 64)).valid true = true) ∧
    ((data.mk ((dec_c2.m_data_new.bitstream <<< (59 - dec_c2.m_state)) %
        2 ^ 64)).valid true = true →
      (dec_c2.sample false 2000).1.get_data =
        data.mk ((dec_c2.m_data_new.bitstream <<< (59 - dec_c2.m_state)) %
          2 ^ 64)) :=
  claim_C2 dec_c2 false 2000 (by decide) (by decide) (by decide) (by decide)

/-- **C6**: a minute boundary whose validation fails returns `no_result` and
leaves both the committed record and the anchor phase untouched. -/
theorem claim_C6 (d : decoder) (value : Bool) (t : Nat)
    (hedge : (d.m_debouncer.sample value t).m_result.edge = true)
    (hfall : (d.m_debouncer.sample value t).m_result.value = false)
    (hdt : sub16 (d.m_debouncer.sample value t).m_result.t d.m_last_t >
      SYNC_HIGH_TIME - SLACK)
    (hinvalid :
      (if d.m_state < 59 then
        (data.mk ((d.m_data_new.bitstream <<< (59 - d.m_state)) % U64)).valid
          true
       else d.m_data_new.valid false) = false) :
    (d.sample value t).2 = state.no_result ∧
    (d.sample value t).1.get_data = d.get_data ∧
    (d.sample value t).1.get_phase = d.get_phase := by
  unfold decoder.sample decoder.handle decoder.sync decoder.get_data
    decoder.get_phase
  simp only [hedge, hfall, if_true, if_pos hdt]
  by_cases hb : d.m_state < 59
  · rw [if_pos hb] at hinvalid
    simp [hb, hinvalid, state.toInt]
  · rw [if_neg hb] at hinvalid
    simp [hb, hinvalid, state.toInt]

/-- Witness for **C6**: `dec_c6` holds an all-zero working register at a
boundary; the call returns `no_result` and keeps record 123 and phase 77. -/
theorem claim_C6_witness :
    (dec_c6.sample false 2000).2 = state.no_result ∧
    (dec_c6.sample false 2000).1.get_data = dec_c6.get_data ∧
    (dec_c6.sample false 2000).1.get_phase = dec_c6.get_phase :=
  claim_C6 dec_c6 false 2000 (by decide) (by decide) (by decide) (by decide)

/-- **C7**: on a rising edge, an interval of at most `LOW_ZERO_TIME - SLACK`
is ignored (no register change, `bit_index` unchanged); an interval in
`(LOW_ZERO_TIME - SLACK, LOW_ONE_TIME - SLACK]` leaves the register — hence
bit `bit_index`, previously 0 — unchanged and increments `bit_index`; a
longer interval sets bit `bit_index` and increments `bit_index` (the
increment being the `uint8_t` increment, i.e. modulo 256). -/
theorem claim_C7 (d : decoder) (value : Bool) (t : Nat)
    (hedge : (d.m_debouncer.sample value t).m_result.edge = true)
    (hrise : (d.m_debouncer.sample value t).m_result.value = true) :
    (sub16 (d.m_debouncer.sample value t).m_result.t d.m_last_t ≤
        LOW_ZERO_TIME - SLACK →
      (d.sample value t).1.m_data_new = d.m_data_new ∧
      (d.sample value t).1.m_state = d.m_state) ∧
    (LOW_ZERO_TIME - SLACK <
        sub16 (d.m_debouncer.sample value t).m_result.t d.m_last_t →
      sub16 (d.m_debouncer.sample value t).m_result.t d.m_last_t ≤
        LOW_ONE_TIME - SLACK →
      (d.sample value t).1.m_data_new = d.m_data_new ∧
      (d.m_data_new.bitstream.testBit d.m_state = false →
        (d.sample value t).1.m_data_new.bitstream.testBit d.m_state = false) ∧
      (d.sample value t).1.m_state = (d.m_state + 1) % 256) ∧
    (LOW_ONE_TIME - SLACK <
        sub16 (d.m_debouncer.sample value t).m_result.t d.m_last_t →
      (d.sample value t).1.m_data_new =
        ⟨set_bit d.m_data_new.bitstream d.m_state⟩ ∧
      (d.m_state < 64 →
        (d.sample value t).1.m_data_new.bitstream.testBit d.m_state = true) ∧
      (d.sample value t).1.m_state = (d.m_state + 1) % 256) := by
  unfold decoder.sample decoder.handle
  simp only [hedge, hrise, if_true]
  refine ⟨fun h1 => ?_, fun h1 h2 => ?_, fun h1 => ?_⟩
  · rw [if_neg (by simp), if_neg (by omega)]
    exact ⟨rfl, rfl⟩
  · rw [if_neg (by simp), if_pos h1, if_neg (by omega)]
    exact ⟨rfl, fun h => h, rfl⟩
  · have h0 : LOW_ZERO_TIME - SLACK <
        sub16 (d.m_debouncer.sample value t).m_result.t d.m_last_t := by
      have hc : LOW_ZERO_TIME - SLACK ≤ LOW_ONE_TIME - SLACK := by decide
      omega
    rw [if_neg (by simp), if_pos h0, if_pos h1]
    refine ⟨rfl, fun h64 => ?_, rfl⟩
    show (set_bit d.m_data_new.bitstream d.m_state).testBit d.m_state = true
    simp only [set_bit, if_pos h64, Nat.shiftLeft_eq, one_mul]
    simp [Nat.testBit_lor, Nat.testBit_two_pow_self]

/-- Witness for **C7**: `dec_c7` sees a rising edge after a 300 ms low
phase; the register gains bit 5 and `bit_index` advances to 6. -/
theorem claim_C7_witness :
    (dec_c7.sample true 300).1.m_data_new =
      ⟨set_bit dec_c7.m_data_new.bitstream dec_c7.m_state⟩ ∧
    (dec_c7.sample true 300).1.m_data_new.bitstream.testBit 5 = true ∧
    (dec_c7.sample true 300).1.m_state = 6 := by
  have h := claim_C7 dec_c7 true 300 (by decide) (by decide)
  have h3 := h.2.2 (by decide)
  exact ⟨h3.1, h3.2.1 (by decide), h3.2.2⟩

/-- Feed the debouncer a constant input once per tick (`n` calls, each one
tick after the previous one). -/
def run_const (v : Bool) : Nat → debounce → debounce
  | 0, st => st
  | n + 1, st => run_const v n (st.sample v (st.m_last_t + 1))

/-- **C9**: under constant `true` input the low-pass accumulator of a
default debouncer reaches `FLT_MAX`, under constant `false` it reaches
`FLT_MIN`, and both are fixed points of the filter update. -/
theorem claim_C9 :
    (∃ n, (run_const true n (debounce.init 64)).m_low_pass = FLT_MAX) ∧
    filter true FLT_MAX = FLT_MAX ∧
    (∃ n, (run_const false n (debounce.init 64)).m_low_pass = FLT_MIN) ∧
    filter false FLT_MIN = FLT_MIN :=
  ⟨⟨40, by decide⟩, by decide, ⟨100, by decide⟩, by decide⟩

/-- **C10**: every accepted bit pulse increments `m_state` by exactly one as
a `uint8_t` (modulo 256); the single-bit register write is the in-range
64-bit shift-or exactly while `m_state < 64` and the modelled out-of-range
branch otherwise; and without an intervening minute boundary a fresh decoder
fed 64 accepted pulses reaches `m_state = 64`, after which the next accepted
pulse performs the out-of-range write (`m_state` keeps growing and the
register no longer changes). -/
theorem claim_C10 :
    (∀ (d : decoder) (value : Bool) (t : Nat),
      (d.m_debouncer.sample value t).m_result.edge = true →
      (d.m_debouncer.sample value t).m_result.value = true →
      sub16 (d.m_debouncer.sample value t).m_result.t d.m_last_t >
        LOW_ZERO_TIME - SLACK →
      (d.sample value t).1.m_state = (d.m_state + 1) % 256) ∧
    (∀ bs i, i < 64 → set_bit bs i = bs ||| (1 <<< i)) ∧
    (∀ bs i, 64 ≤ i → set_bit bs i = bs) ∧
    (decoder.run decoder.init (pulse_train 64)).m_state = 64 ∧
    (decoder.run decoder.init (pulse_train 65)).m_state = 65 ∧
    (decoder.run decoder.init (pulse_train 65)).m_data_new =
      (decoder.run decoder.init (pulse_train 64)).m_data_new := by
  have split64 : pulse_train 64 = pulse_seg 0 32 ++ pulse_seg 32 64 := by
    decide
  have split65 : pulse_train 65 =
      pulse_seg 0 32 ++ (pulse_seg 32 64 ++ pulse_seg 64 65) := by decide
  have s32 : decoder.run decoder.init (pulse_seg 0 32) = dec_after32 := by
    decide
  have s64 : decoder.run dec_after32 (pulse_seg 32 64) = dec_after64 := by
    decide
  have s65 : decoder.run dec_after64 (pulse_seg 64 65) = dec_after65 := by
    decide
  have run64 : decoder.run decoder.init (pulse_train 64) = dec_after64 := by
    rw [split64, decoder.run_append, s32, s64]
  have run65 : decoder.run decoder.init (pulse_train 65) = dec_after65 := by
    rw [split65, decoder.run_append, decoder.run_append, s32, s64, s65]
  refine ⟨?_, ?_, ?_, by rw [run64]; rfl, by rw [run65]; rfl,
    by rw [run64, run65]; rfl⟩
  · intro d value t hedge hrise hdt
    unfold decoder.sample decoder.handle
    simp only [hedge, hrise, if_true]
    rw [if_neg (by simp), if_pos hdt]
  · intro bs i h
    simp [set_bit, h]
  · intro bs i h
    simp [set_bit]
    omega

/-- Witness for **C10**: the increment and both branches of the write at
concrete inputs. -/
theorem claim_C10_witness :
    (dec_c7.sample true 300).1.m_state = (dec_c7.m_state + 1) % 256 ∧
    set_bit 5 3 = 13 ∧ set_bit 5 64 = 5 := by
  refine ⟨claim_C10.1 dec_c7 true 300 (by decide) (by decide) (by decide),
    (claim_C10.2.1 5 3 (by decide)).trans (by decide),
    claim_C10.2.2.1 5 64 (by decide)⟩

/-- A bit-field of `width` bits is below `2 ^ width`. -/
theorem bits_lt (x lo w : Nat) : bits x lo w < 2 ^ w := by
  have h1 : (x >>> lo) &&& (2 ^ w - 1) ≤ 2 ^ w - 1 := Nat.and_le_right
  have h2 : 0 < 2 ^ w := Nat.pos_pow_of_pos w (by omega)
  unfold bits
  omega

/-- A value passing `valid_bcd` has both BCD digits at most 9. -/
theorem valid_bcd_digits (a b x : Nat) (h : valid_bcd a b x = true) :
    (x &&& 0xF0) >>> 4 ≤ 9 ∧ x &&& 0x0F ≤ 9 := by
  simp only [valid_bcd] at h
  by_cases h1 : (x &&& 0xF0) >>> 4 > 9 ∨ (x &&& 0x0F) >>> 0 > 9
  · rw [if_pos h1] at h
    exact absurd h (by simp)
  · push_neg at h1
    exact ⟨h1.1, h1.2⟩

/-- A 7-bit value passing `valid_bcd<5, 9>` decodes to at most 59. -/
theorem bcd_minute_le : ∀ x, x < 128 → valid_bcd 5 9 x = true →
    decode_bcd x ≤ 59 := by decide

/-- A 6-bit value passing `valid_bcd<2, 3>` decodes to at most 23. -/
theorem bcd_hour_le : ∀ x, x < 64 → valid_bcd 2 3 x = true →
    decode_bcd x ≤ 23 := by decide

/-- A positive 6-bit value passing `valid_bcd<3, 1>` decodes into 1..31. -/
theorem bcd_day_le : ∀ x, x < 64 → valid_bcd 3 1 x = true → 0 < x →
    1 ≤ decode_bcd x ∧ decode_bcd x ≤ 31 := by decide

/-- A positive 5-bit value passing `valid_bcd<1, 2>` decodes into 1..12. -/
theorem bcd_month_le : ∀ x, x < 32 → valid_bcd 1 2 x = true → 0 < x →
    1 ≤ decode_bcd x ∧ decode_bcd x ≤ 12 := by decide

/-- An 8-bit value passing `valid_bcd<9, 9>` decodes to at most 99. -/
theorem bcd_year_le : ∀ x, x < 256 → valid_bcd 9 9 x = true →
    decode_bcd x ≤ 99 := by decide

/-- **C5**: every 64-bit register accepted by the full validation
`data::valid(false)` has minute-start 0, time-start 1, exactly one of
CEST/CET set, the three parity bits matching the even parity of their
covered ranges, all BCD digits at most 9, and decoded values in range:
minute ≤ 59, hour ≤ 23, 1 ≤ day ≤ 31, day-of-week ≥ 1, 1 ≤ month ≤ 12,
year ≤ 99. -/
theorem claim_C5 (d : data) (hn : d.bitstream < U64)
    (hv : d.valid false = true) :
    d.minute_start = 0 ∧
    d.time_start = 1 ∧
    d.cest + d.cet = 1 ∧
    d.parity_minute = parity d.raw_minute ∧
    d.parity_hour = parity d.raw_hour ∧
    d.parity_date = parity ((d.bitstream &&& 0x3FFFFF000000000) >>> 32) ∧
    ((d.raw_minute &&& 0xF0) >>> 4 ≤ 9 ∧ d.raw_minute &&& 0x0F ≤ 9) ∧
    ((d.raw_hour &&& 0xF0) >>> 4 ≤ 9 ∧ d.raw_hour &&& 0x0F ≤ 9) ∧
    ((d.raw_day &&& 0xF0) >>> 4 ≤ 9 ∧ d.raw_day &&& 0x0F ≤ 9) ∧
    ((d.raw_month &&& 0xF0) >>> 4 ≤ 9 ∧ d.raw_month &&& 0x0F ≤ 9) ∧
    ((d.raw_year &&& 0xF0) >>> 4 ≤ 9 ∧ d.raw_year &&& 0x0F ≤ 9) ∧
    decode_bcd d.raw_minute ≤ 59 ∧
    decode_bcd d.raw_hour ≤ 23 ∧
    (1 ≤ decode_bcd d.raw_day ∧ decode_bcd d.raw_day ≤ 31) ∧
    1 ≤ d.day_of_week ∧
    (1 ≤ decode_bcd d.raw_month ∧ decode_bcd d.raw_month ≤ 12) ∧
    decode_bcd d.raw_year ≤ 99 := by
  have h := hv
  simp only [data.valid, Bool.false_or, Bool.and_eq_true, beq_iff_eq,
    bne_iff_ne, decide_eq_true_eq] at h
  obtain ⟨⟨⟨⟨⟨⟨⟨⟨⟨⟨⟨⟨⟨h1, h2⟩, h3⟩, h4⟩, h5⟩, h6⟩, h7⟩, h8⟩, h9⟩, h10⟩,
    h11⟩, h12⟩, h13⟩, h14⟩ := h
  have hminute : d.raw_minute < 128 := by
    have h0 := bits_lt d.bitstream 21 7
    norm_num at h0
    exact h0
  have hhour : d.raw_hour < 64 := by
    have h0 := bits_lt d.bitstream 29 6
    norm_num at h0
    exact h0
  have hday : d.raw_day < 64 := by
    have h0 := bits_lt d.bitstream 36 6
    norm_num at h0
    exact h0
  have hmonth : d.raw_month < 32 := by
    have h0 := bits_lt d.bitstream 45 5
    norm_num at h0
    exact h0
  have hyear : d.raw_year < 256 := by
    have h0 := bits_lt d.bitstream 50 8
    norm_num at h0
    exact h0
  have hcest : d.cest ≤ 1 := by
    have h0 := bits_lt d.bitstream 17 1
    norm_num at h0
    exact Nat.lt_succ_iff.mp h0
  have hcet : d.cet ≤ 1 := by
    have h0 := bits_lt d.bitstream 18 1
    norm_num at h0
    exact Nat.lt_succ_iff.mp h0
  have hne : d.cest ≠ d.cet := h3
  refine ⟨h1, h2, by omega, h4, h5, h6,
    valid_bcd_digits _ _ _ h7, valid_bcd_digits _ _ _ h8,
    valid_bcd_digits _ _ _ h9, valid_bcd_digits _ _ _ h12,
    valid_bcd_digits _ _ _ h14,
    bcd_minute_le _ hminute h7, bcd_hour_le _ hhour h8,
    bcd_day_le _ hday h9 h10, h11,
    bcd_month_le _ hmonth h12 h13, bcd_year_le _ hyear h14⟩

/-- Witness for **C5**: the concrete register `valid_bits` passes the full
validation, and its decoded fields are in range. -/
theorem claim_C5_witness :
    (data.mk valid_bits).minute_start = 0 ∧
    (data.mk valid_bits).cest + (data.mk valid_bits).cet = 1 ∧
    (1 ≤ decode_bcd (data.mk valid_bits).raw_day ∧
      decode_bcd (data.mk valid_bits).raw_day ≤ 31) := by
  have h := claim_C5 (data.mk valid_bits) (by decide) (by decide)
  exact ⟨h.1, h.2.2.1, h.2.2.2.2.2.2.2.2.2.2.2.2.2.1⟩

/-- A sample whose raw value matches the previous raw input keeps
`m_last_state_change`, records the input value, and any edge it reports
carries the stored raw-transition timestamp. -/
theorem sample_same_input (st : debounce) (v : Bool) (t : Nat)
    (h : v = st.m_last_input_value) :
    (st.sample v t).m_last_state_change = st.m_last_state_change ∧
    (st.sample v t).m_last_input_value = v ∧
    (!(st.sample v t).m_result.edge ||
      ((st.sample v t).m_result.t == st.m_last_state_change)) = true := by
  unfold debounce.sample
  rw [if_neg (by simp [h])]
  refine ⟨rfl, rfl, ?_⟩
  dsimp only
  split_ifs <;> simp

/-- A sample whose raw value differs from the previous raw input stores `t`
as the raw-transition timestamp, and any edge it reports carries it. -/
theorem sample_flip_input (st : debounce) (v : Bool) (t : Nat)
    (h : v ≠ st.m_last_input_value) :
    (st.sample v t).m_last_state_change = t % 65536 ∧
    (st.sample v t).m_last_input_value = v ∧
    (!(st.sample v t).m_result.edge ||
      ((st.sample v t).m_result.t == t % 65536)) = true := by
  unfold debounce.sample
  rw [if_pos h]
  refine ⟨rfl, rfl, ?_⟩
  dsimp only
  split_ifs <;> simp

/-- While the raw input stays constant, every edge reported along the trace
carries the stored raw-transition timestamp `T`. -/
theorem trace_keeps_t (rest : List (Bool × Nat)) :
    ∀ (st : debounce) (b : Bool) (T : Nat),
    st.m_last_state_change = T → st.m_last_input_value = b →
    rest.all (fun p => p.1 == b) = true →
    (debounce.trace st rest).all
      (fun s => !s.m_result.edge || (s.m_result.t == T)) = true := by
  induction rest with
  | nil => intro st b T _ _ _; simp [debounce.trace]
  | cons p l ih =>
    intro st b T hsc hbv hall
    simp only [List.all_cons, Bool.and_eq_true, beq_iff_eq] at hall
    obtain ⟨hp, hl⟩ := hall
    have hs := sample_same_input st p.1 p.2 (by rw [hp, hbv])
    simp only [debounce.trace, List.all_cons, Bool.and_eq_true]
    constructor
    · rw [hsc] at hs
      exact hs.2.2
    · refine ih (st.sample p.1 p.2) b T (hs.1.trans hsc) (hs.2.1.trans hp) ?_
      simpa using hl

/-- **C4**: if the raw input last flips at tick `T < 2 ^ 16` (the first
sample of the trace) and then stays constant, every edge event reported by
`debounce::sample` during the trace — in particular the debounced flip that
happens some calls later — carries timestamp `T`, not the tick at which the
low-pass accumulator crossed the threshold. -/
theorem claim_C4 (st : debounce) (b : Bool) (T : Nat)
    (rest : List (Bool × Nat))
    (hb : st.m_last_input_value = b) (hT : T < 65536)
    (hrest : rest.all (fun p => p.1 == !b) = true) :
    (debounce.trace st ((!b, T) :: rest)).all
      (fun s => !s.m_result.edge || (s.m_result.t == T)) = true := by
  have hTmod : T % 65536 = T := Nat.mod_eq_of_lt hT
  have h1 := sample_flip_input st (!b) T (by simp [hb])
  simp only [debounce.trace, List.all_cons, Bool.and_eq_true]
  constructor
  · rw [hTmod] at h1
    exact h1.2.2
  · exact trace_keeps_t rest (st.sample (!b) T) (!b) T
      (h1.1.trans hTmod) h1.2.1 hrest

/-- The constant-`true` tail of the witness trace for C4: ticks 6 to 45. -/
def c4_rest : List (Bool × Nat) := (List.range 40).map (fun i => (true, 6 + i))

/-- Witness for **C4**: a fresh debouncer whose raw input flips to `true` at
tick 5; along 40 further ticks every reported edge (the debounced flip
happens 10 ticks later) carries timestamp 5 — and an edge does fire. -/
theorem claim_C4_witness :
    (debounce.trace (debounce.init 64) ((true, 5) :: c4_rest)).all
      (fun s => !s.m_result.edge || (s.m_result.t == 5)) = true ∧
    (debounce.trace (debounce.init 64) ((true, 5) :: c4_rest)).any
      (fun s => s.m_result.edge) = true := by
  constructor
  · have h := claim_C4 (debounce.init 64) false 5 c4_rest (by decide)
      (by decide) (by decide)
    simpa using h
  · decide

/-! ## Hysteresis monotonicity (C3)

The debounced output flips to `true` once the low-pass accumulator exceeds
`FLT_MAX - m_hysteresis`.  A larger hysteresis parameter therefore lowers
the threshold and makes the flip happen sooner, not later. -/

/-- `debounce::sample` never changes the stored hysteresis. -/
theorem sample_m_hysteresis (st : debounce) (v : Bool) (t : Nat) :
    (st.sample v t).m_hysteresis = st.m_hysteresis := rfl

/-- The accumulator after a sample, as a function of the previous state. -/
theorem sample_m_low_pass (st : debounce) (v : Bool) (t : Nat) :
    (st.sample v t).m_low_pass =
      low_pass_iter v (sub16 t st.m_last_t) st.m_low_pass := rfl

/-- The timestamp stored by a sample. -/
theorem sample_m_last_t (st : debounce) (v : Bool) (t : Nat) :
    (st.sample v t).m_last_t = t % 65536 := rfl

/-- With the debounced output low, a sample reports an edge exactly when the
updated accumulator exceeds `FLT_MAX - m_hysteresis`. -/
theorem sample_edge_iff (st : debounce) (v : Bool) (t : Nat)
    (hv : st.m_result.value = false) :
    ((st.sample v t).m_result.edge = true) ↔
      ((low_pass_iter v (sub16 t st.m_last_t) st.m_low_pass : Int) >
        (FLT_MAX : Int) - (st.m_hysteresis : Int)) := by
  by_cases hA : ((low_pass_iter v (sub16 t st.m_last_t) st.m_low_pass : Int) >
      (FLT_MAX : Int) - (st.m_hysteresis : Int))
  · have he : (st.sample v t).m_result.edge = true := by
      unfold debounce.sample
      dsimp only
      rw [if_pos ⟨hA, hv⟩]
    exact iff_of_true he hA
  · have he : (st.sample v t).m_result.edge = false := by
      unfold debounce.sample
      dsimp only
      rw [if_neg (fun hc => hA hc.1),
        if_neg (fun hc => by simp [hv] at hc)]
    exact iff_of_false (by simp [he]) hA

/-- A sample that reports no edge keeps the debounced output value. -/
theorem sample_value_no_edge (st : debounce) (v : Bool) (t : Nat)
    (h : (st.sample v t).m_result.edge = false) :
    (st.sample v t).m_result.value = st.m_result.value := by
  unfold debounce.sample at h ⊢
  dsimp only at h ⊢
  by_cases hA : ((low_pass_iter v (sub16 t st.m_last_t) st.m_low_pass : Int) >
      (FLT_MAX : Int) - (st.m_hysteresis : Int) ∧ st.m_result.value = false)
  · rw [if_pos hA] at h
    simp at h
  · rw [if_neg hA] at h ⊢
    by_cases hB : ((low_pass_iter v (sub16 t st.m_last_t) st.m_low_pass :
        Int) < (FLT_MIN : Int) + (st.m_hysteresis : Int) ∧
        st.m_result.value = true)
    · rw [if_pos hB] at h
      simp at h
    · rw [if_neg hB]

/-- Core monotonicity: two debouncers in corresponding states (same
accumulator and clock, both outputs low) where the second has at least the
hysteresis of the first; if the first reports its rising edge after `k`
constant-`true` ticks, the second reports it after at most `k` ticks. -/
theorem first_edge_mono : ∀ (fuel : Nat) (s1 s2 : debounce) (t0 : Nat),
    s1.m_low_pass = s2.m_low_pass → s1.m_last_t = s2.m_last_t →
    s1.m_result.value = false → s2.m_result.value = false →
    s1.m_hysteresis ≤ s2.m_hysteresis →
    ∀ k, first_edge_true s1 t0 fuel = some k →
    ∃ k2, k2 ≤ k ∧ first_edge_true s2 t0 fuel = some k2 := by
  intro fuel
  induction fuel with
  | zero =>
    intro s1 s2 t0 _ _ _ _ _ k hk
    simp [first_edge_true] at hk
  | succ n ih =>
    intro s1 s2 t0 hlp hlt hv1 hv2 hh k hk
    have hlp' : (s1.sample true t0).m_low_pass =
        (s2.sample true t0).m_low_pass := by
      rw [sample_m_low_pass, sample_m_low_pass, hlp, hlt]
    have hlt' : (s1.sample true t0).m_last_t =
        (s2.sample true t0).m_last_t := by
      rw [sample_m_last_t, sample_m_last_t]
    have hh' : (s1.sample true t0).m_hysteresis ≤
        (s2.sample true t0).m_hysteresis := by
      rw [sample_m_hysteresis, sample_m_hysteresis]
      exact hh
    by_cases he2 : (s2.sample true t0).m_result.edge = true
    · refine ⟨0, Nat.zero_le k, ?_⟩
      simp [first_edge_true, he2]
    · have he2f : (s2.sample true t0).m_result.edge = false :=
        Bool.eq_false_iff.mpr he2
      have he1 : (s1.sample true t0).m_result.edge = false := by
        cases hb : (s1.sample true t0).m_result.edge
        · rfl
        · exfalso
          have hc1 := (sample_edge_iff s1 true t0 hv1).mp hb
          have hc2 : ((low_pass_iter true (sub16 t0 s2.m_last_t)
              s2.m_low_pass : Int) >
              (FLT_MAX : Int) - (s2.m_hysteresis : Int)) := by
            rw [← hlp, ← hlt]
            have hcast : (s1.m_hysteresis : Int) ≤ (s2.m_hysteresis : Int) :=
              by exact_mod_cast hh
            omega
          exact he2 ((sample_edge_iff s2 true t0 hv2).mpr hc2)
      rw [show first_edge_true s1 t0 (n + 1) =
            (first_edge_true (s1.sample true t0) (t0 + 1) n).map (· + 1) from
          by simp [first_edge_true, he1]] at hk
      cases hj : first_edge_true (s1.sample true t0) (t0 + 1) n with
      | none =>
        rw [hj] at hk
        simp at hk
      | some j =>
        rw [hj] at hk
        have hk' : j + 1 = k := by
          simpa using hk
        have hv1' : (s1.sample true t0).m_result.value = false :=
          (sample_value_no_edge s1 true t0 he1).trans hv1
        have hv2' : (s2.sample true t0).m_result.value = false :=
          (sample_value_no_edge s2 true t0 he2f).trans hv2
        obtain ⟨k2, hk2le, hk2⟩ := ih (s1.sample true t0) (s2.sample true t0)
          (t0 + 1) hlp' hlt' hv1' hv2' hh' j hj
        refine ⟨k2 + 1, by omega, ?_⟩
        simp [first_edge_true, he2f, hk2]

/-- Counterexample to **C3** as stated: for the single-transition experiment
`flip_delay`, hysteresis 3 needs 31 ticks to register the flip while the
larger hysteresis 255 needs 0 ticks — the tick count under the larger
hysteresis is *smaller*, not greater-or-equal. -/
theorem claim_C3_counterexample :
    (3 : Nat) < 255 ∧
    flip_delay 3 200 = some 31 ∧
    flip_delay 255 200 = some 0 ∧
    ¬(31 : Nat) ≤ 0 := by
  refine ⟨by norm_num, by decide, by decide, by omega⟩

/-- **C3 (amended)**: in the canonical single-raw-transition experiment
(fresh debouncer, input flipping to `true` and held, one sample per tick),
increasing the hysteresis parameter never *increases* the number of ticks
needed to register the flip: if the smaller hysteresis registers it after
`k` ticks, the larger one registers it after at most `k` ticks.  (The spec
stated the reversed inequality.) -/
theorem claim_C3 (h1 h2 fuel k : Nat) (hle : h1 ≤ h2) (hmax : h2 ≤ 255)
    (hk : flip_delay h1 fuel = some k) :
    ∃ k2, k2 ≤ k ∧ flip_delay h2 fuel = some k2 := by
  have hmod1 : h1 % 256 = h1 := Nat.mod_eq_of_lt (by omega)
  have hmod2 : h2 % 256 = h2 := Nat.mod_eq_of_lt (by omega)
  have hhyst : (debounce.init h1).m_hysteresis ≤
      (debounce.init h2).m_hysteresis := by
    simp only [debounce.init]
    rw [hmod1, hmod2, Nat.shiftRight_eq_div_pow, Nat.shiftRight_eq_div_pow]
    exact Nat.div_le_div_right (Nat.mul_le_mul_right _ hle)
  exact first_edge_mono fuel (debounce.init h1) (debounce.init h2) 1
    rfl rfl rfl rfl hhyst k hk

/-- Witness for **C3 (amended)**: from hysteresis 3 (31 ticks) to hysteresis
64 the flip is registered after at most 31 ticks. -/
theorem claim_C3_witness :
    ∃ k2, k2 ≤ 31 ∧ flip_delay 64 200 = some k2 :=
  claim_C3 3 64 200 31 (by norm_num) (by norm_num) (by decide)

end Dcf77
